import Mathlib

/-!
Verification of the NAGRIK RAG classifier (rag-classifier/app.py and
rag-classifier/enhanced_app.py) against its natural-language specification.
The Python code is shallowly embedded: pure text processing becomes Lean
functions over `String`/`List Char`, floating-point arithmetic is modelled
by exact rationals, and the external OpenAI transport is modelled by an
explicit parameter describing the outcome of the network call and JSON
parse.  Character classes model the ASCII fragment of Python's `str.lower`,
`re` word/space classes and `str.split`.
-/

set_option maxRecDepth 4000

namespace Nagrik

/-- ASCII fragment of Python's regex class `\w` (`[a-zA-Z0-9_]`). -/
def isWordChar (c : Char) : Bool :=
  c.isAlphanum || c = '_'

/-- ASCII fragment of Python's regex class `\s` / `str.isspace`
(space, tab, newline, carriage return, vertical tab, form feed). -/
def isSpaceChar (c : Char) : Bool :=
  c = ' ' || c = '\t' || c = '\n' || c = '\r' || c = '\x0b' || c = '\x0c'

/-- One character of `re.sub(r'[^\w\s]', ' ', text)` (app.py line 75):
a character that is neither a word character nor whitespace is replaced
by a single space. -/
def scrubChar (c : Char) : Char :=
  if isWordChar c || isSpaceChar c then c else ' '

/-- Accumulator worker for `str.split()`: `cur` holds the (reversed)
current run of non-space characters. -/
def splitWsAux : List Char → List Char → List (List Char)
  | cur, [] => if cur = [] then [] else [cur.reverse]
  | cur, c :: cs =>
    if isSpaceChar c then
      if cur = [] then splitWsAux [] cs
      else cur.reverse :: splitWsAux [] cs
    else splitWsAux (c :: cur) cs

/-- Python's `text.split()` (no separator argument): split on runs of
whitespace, discarding empty tokens. -/
def splitWs (l : List Char) : List (List Char) :=
  splitWsAux [] l

/-- Python's `' '.join(tokens)`. -/
def joinTokens : List (List Char) → List Char
  | [] => []
  | [t] => t
  | t :: ts => t ++ ' ' :: joinTokens ts

/-- `RAGClassifier.preprocess_text` (app.py lines 66-80): empty input is
returned unchanged; otherwise lowercase, replace non-word non-space
characters by spaces, and collapse/trim whitespace via
`' '.join(text.split())`. -/
def preprocess_text (s : String) : String :=
  if s = "" then ""
  else ⟨joinTokens (splitWs ((s.data.map Char.toLower).map scrubChar))⟩

example : preprocess_text "  Hello,   WORLD!! " = "hello world" := by decide
example : preprocess_text "" = "" := by decide
example : preprocess_text "???" = "" := by decide

/-- Python's `str.lower()` (ASCII fragment), used for `keyword.lower()`. -/
def pyLower (s : String) : String :=
  ⟨s.data.map Char.toLower⟩

/-- Python's substring test `needle in hay` on strings. -/
def substrOf (needle hay : String) : Bool :=
  decide (needle.data <:+: hay.data)

/-- Python's `str.capitalize()` (ASCII fragment): first character upper
case, the rest lower case. -/
def capFirst (s : String) : String :=
  match s.data with
  | [] => ""
  | c :: cs => ⟨Char.toUpper c :: cs.map Char.toLower⟩

/-- Python's `str.strip()` (whitespace trim on both ends), ASCII fragment. -/
def pyStrip (s : String) : String :=
  ⟨((s.data.dropWhile isSpaceChar).reverse.dropWhile isSpaceChar).reverse⟩

/-- Python's two-argument `min` on numbers (ties keep the first argument);
kernel-reducible, and equal to `min` on `ℚ` (`pyMin_eq_min` below). -/
def pyMin (a b : ℚ) : ℚ :=
  if a ≤ b then a else b

/-- Python's two-argument `max` on numbers; kernel-reducible, and equal to
`max` on `ℚ` (`pyMax_eq_max` below). -/
def pyMax (a b : ℚ) : ℚ :=
  if a ≤ b then b else a

theorem pyMin_eq_min (a b : ℚ) : pyMin a b = min a b := by
  rw [pyMin, min_def]

theorem pyMax_eq_max (a b : ℚ) : pyMax a b = max a b := by
  rw [pyMax, max_def]

/-- Python's `max(iterable, key=f)` over a nonempty list `acc :: rest`:
keeps the first element attaining the maximal key (later elements replace
the current one only when strictly greater). -/
def pyMaxBy {α : Type} (f : α → Nat) : α → List α → α
  | acc, [] => acc
  | acc, x :: xs => pyMaxBy f (if f acc < f x then x else acc) xs

/-- One entry of the category catalog loaded by
`RAGClassifier.load_categories` from `categories.json` (the JSON file is
not part of the repository, so the catalog is kept abstract): a name, a
keyword list, and per-severity-level indicator lists (the keys of the
`severity_indicators` dict). -/
structure Category where
  name : String
  keywords : List String
  lowIndicators : List String
  mediumIndicators : List String
  highIndicators : List String
  criticalIndicators : List String
deriving Repr, DecidableEq

/-- The `severity_scores` dict of `keyword_classification`
(app.py line 88), with keys `low`, `medium`, `high`, `critical`. -/
structure SevScores where
  low : Nat
  medium : Nat
  high : Nat
  critical : Nat
deriving Repr, DecidableEq

/-- Keywords of one category matching the processed text
(`keyword.lower() in processed_text`, app.py lines 95-98). -/
def matchedKeywords (c : Category) (processed : String) : List String :=
  c.keywords.filter (fun kw => substrOf (pyLower kw) processed)

/-- Number of indicators from one list occurring in the processed text
(`indicator.lower() in processed_text`, app.py lines 101-104). -/
def countHits (indicators : List String) (processed : String) : Nat :=
  (indicators.filter (fun kw => substrOf (pyLower kw) processed)).length

/-- The `severity_scores` totals after the category loop of
`keyword_classification` (app.py lines 100-104): indicator hits are
summed across all categories into the four global counters. -/
def severityScores (cats : List Category) (processed : String) : SevScores :=
  { low := (cats.map (fun c => countHits c.lowIndicators processed)).sum
    medium := (cats.map (fun c => countHits c.mediumIndicators processed)).sum
    high := (cats.map (fun c => countHits c.highIndicators processed)).sum
    critical := (cats.map (fun c => countHits c.criticalIndicators processed)).sum }

/-- The `category_scores` dict (app.py lines 87-110) in catalog order:
one `(name, score, matched_keywords)` entry per category with a positive
score. -/
def categoryScores (cats : List Category) (processed : String) :
    List (String × Nat × List String) :=
  cats.filterMap (fun c =>
    let mk := matchedKeywords c processed
    if 0 < mk.length then some (c.name, mk.length, mk) else none)

/-- `best_category`/`best_score`/`matched_keywords` selection of
`keyword_classification` (app.py lines 112-121): default
`("Other", 0, [])`, else the first entry of `category_scores` with
maximal score (Python `max` over dict items). -/
def bestCategory (scores : List (String × Nat × List String)) :
    String × Nat × List String :=
  match scores with
  | [] => ("Other", 0, [])
  | x :: xs => pyMaxBy (fun e => e.2.1) x xs

/-- `max(severity_scores.items(), key=...)` (app.py line 124): the first
severity level, in dict insertion order low/medium/high/critical, with
maximal counter. -/
def bestSeverity (ss : SevScores) : String × Nat :=
  pyMaxBy (fun e => e.2) ("low", ss.low)
    [("medium", ss.medium), ("high", ss.high), ("critical", ss.critical)]

/-- Result dict of `RAGClassifier.keyword_classification`
(app.py lines 131-139). -/
structure KeywordResult where
  category : String
  severity : String
  confidence : ℚ
  method : String
  matched_keywords : List String
  category_scores : List (String × Nat × List String)
  severity_scores : SevScores
deriving Repr, DecidableEq

/-- `RAGClassifier.keyword_classification` (app.py lines 82-139):
keyword-count scoring over the catalog, global severity tallies, density
confidence `min(best_score / max(total_words * 0.1, 1), 1.0)` (0 when the
processed text has no words). -/
def keyword_classification (cats : List Category) (title description : String) :
    KeywordResult :=
  let text := title ++ " " ++ description
  let processed := preprocess_text text
  let scores := categoryScores cats processed
  let ss := severityScores cats processed
  let best := bestCategory scores
  let sev := bestSeverity ss
  let severity := if 0 < sev.2 then capFirst sev.1 else "Medium"
  let totalWords := (splitWs processed.data).length
  let confidence : ℚ :=
    if 0 < totalWords then
      pyMin ((best.2.1 : ℚ) / pyMax ((totalWords : ℚ) * 0.1) 1) 1
    else 0
  { category := best.1
    severity := severity
    confidence := confidence
    method := "keyword"
    matched_keywords := best.2.2
    category_scores := scores
    severity_scores := ss }

/-- A sample catalog used only in concrete examples and witnesses. -/
def catsW : List Category :=
  [{ name := "Water Supply"
     keywords := ["water", "pipeline"]
     lowIndicators := ["minor"]
     mediumIndicators := ["problem"]
     highIndicators := ["shortage"]
     criticalIndicators := ["contamination"] },
   { name := "Infrastructure"
     keywords := ["road", "pothole"]
     lowIndicators := []
     mediumIndicators := []
     highIndicators := ["blocked"]
     criticalIndicators := ["collapse"] }]

example : (keyword_classification catsW "water" "").confidence = 1 := by
  have h1 : bestCategory (categoryScores catsW (preprocess_text ("water" ++ " " ++ ""))) =
      ("Water Supply", 1, ["water"]) := by decide
  have h2 : (splitWs (preprocess_text ("water" ++ " " ++ "")).data).length = 1 := by
    decide
  simp only [keyword_classification, h1, h2]
  norm_num [pyMin, pyMax]

example : (keyword_classification catsW "water" "").category = "Water Supply" := by
  simp only [keyword_classification]
  decide

example : (keyword_classification catsW "xyz" "").category = "Other" := by
  simp only [keyword_classification]
  decide

example : (keyword_classification catsW "Water shortage" "").severity = "High" := by
  simp only [keyword_classification]
  decide

/-- The fields of the JSON object returned by the OpenAI chat call that
`openai_classification` inspects; each is `none` when the key is absent
from the parsed payload. -/
structure LlmPayload where
  category : Option String
  severity : Option String
  confidence : Option ℚ
deriving Repr, DecidableEq

/-- Outcome of the outbound OpenAI call made by `openai_classification`:
`none` models a transport-level exception from
`openai.ChatCompletion.create`, `some none` a payload that is not
well-formed JSON (`json.loads` raises), and `some (some p)` a parsed
payload `p`. -/
abbrev LlmIO : Type := Option (Option LlmPayload)

/-- The validated result dict built by `openai_classification`
(app.py lines 198-219). -/
structure OpenAIResult where
  category : String
  severity : String
  confidence : Option ℚ
  method : String
deriving Repr, DecidableEq

/-- `valid_severities` (app.py line 211). -/
def validSeverities : List String :=
  ["Low", "Medium", "High", "Critical"]

/-- `RAGClassifier.openai_classification` (app.py lines 141-226): raises
without a configured API key; propagates transport errors and malformed
JSON; raises when `category` or `severity` is absent; coerces a category
outside the catalog names to `"Other"` and a severity outside
`validSeverities` to `"Medium"`; passes `confidence` through untouched. -/
def openai_classification (cats : List Category) (apiKey : Bool) (io : LlmIO) :
    Except String OpenAIResult :=
  if !apiKey then .error "OpenAI API key not configured"
  else
    match io with
    | none => .error "OpenAI API error"
    | some none => .error "Invalid response format from OpenAI"
    | some (some p) =>
      match p.category, p.severity with
      | some c, some s =>
        let c := if (cats.map Category.name).contains c then c else "Other"
        let s := if validSeverities.contains s then s else "Medium"
        .ok { category := c, severity := s, confidence := p.confidence
              method := "openai" }
      | _, _ => .error "Invalid response format from OpenAI"

/-- Response dict of `hybrid_classification` (the `extractedInfo` map is
reduced to its `method` tag; the attached sub-results are determined by
the inputs). -/
structure HybridResult where
  success : Bool
  category : String
  severity : String
  confidence : ℚ
  method : String
deriving Repr, DecidableEq

/-- `RAGClassifier.hybrid_classification` (app.py lines 228-293) together
with the number of outbound OpenAI calls it makes: keyword short-circuit
at confidence ≥ 0.7; otherwise the OpenAI branch when a key is configured
(agreement adds +0.2 capped at 1.0); otherwise (or on adapter failure)
keyword fallback with confidence floored at 0.3. -/
def hybridRun (cats : List Category) (title description : String)
    (apiKey : Bool) (io : LlmIO) : HybridResult × Nat :=
  let kw := keyword_classification cats title description
  if (0.7 : ℚ) ≤ kw.confidence then
    ({ success := true, category := kw.category, severity := kw.severity
       confidence := kw.confidence, method := "keyword" }, 0)
  else if apiKey then
    match openai_classification cats apiKey io with
    | .ok o =>
      let fc := o.confidence.getD 0.8
      let fc := if kw.category = o.category then pyMin (fc + 0.2) 1 else fc
      ({ success := true, category := o.category, severity := o.severity
         confidence := fc, method := "hybrid" }, 1)
    | .error _ =>
      ({ success := true, category := kw.category, severity := kw.severity
         confidence := pyMax kw.confidence 0.3, method := "keyword_fallback" }, 1)
  else
    ({ success := true, category := kw.category, severity := kw.severity
       confidence := pyMax kw.confidence 0.3, method := "keyword_fallback" }, 0)

/-- The classification response of `hybrid_classification`. -/
def hybrid_classification (cats : List Category) (title description : String)
    (apiKey : Bool) (io : LlmIO) : HybridResult :=
  (hybridRun cats title description apiKey io).1

/-- Number of outbound OpenAI calls made while serving one request. -/
def hybridLlmCalls (cats : List Category) (title description : String)
    (apiKey : Bool) (io : LlmIO) : Nat :=
  (hybridRun cats title description apiKey io).2

/-- Category names of `EnhancedRAGClassifier.load_categories`
(enhanced_app.py lines 50-123), in dict insertion order. -/
def enhancedCategoryNames : List String :=
  ["Infrastructure", "Transportation", "Water Supply", "Electricity",
   "Sanitation", "Healthcare", "Education", "Public Safety", "Environment",
   "Governance", "Rural Development", "Mining Issues", "Tribal Affairs",
   "Forest Conservation"]

/-- `EnhancedRAGClassifier.classify_with_openai`
(enhanced_app.py lines 636-670): without a key, or on any exception
(modelled by `reply = none`), returns `('Infrastructure', 0.5)`; a
stripped reply naming a catalog category yields `(name, 0.8)`, anything
else `('Infrastructure', 0.5)`. -/
def classify_with_openai (apiKey : Bool) (reply : Option String) : String × ℚ :=
  if !apiKey then ("Infrastructure", 0.5)
  else
    match reply with
    | none => ("Infrastructure", 0.5)
    | some content =>
      let predicted := pyStrip content
      if enhancedCategoryNames.contains predicted then (predicted, 0.8)
      else ("Infrastructure", 0.5)

/-- Request body of the enhanced `/classify` endpoint: `none` models a
missing/empty JSON body, and `text = none` a body without a `text` key. -/
structure ClassifyRequest where
  text : Option String
  location : String
  user_phone : String

/-- HTTP response of the enhanced `/classify` endpoint: either a
`success: false` error with its status code, or a `success: true`
response wrapping classification data. -/
inductive ApiResponse (α : Type) where
  | failure (status : Nat) (error : String)
  | success (data : α)
deriving DecidableEq

/-- The `classify_complaint` route handler of the enhanced variant
(enhanced_app.py lines 217-251), parameterized by the classifier
`self.classify_text` it invokes on validated input: rejects a missing
body or missing `text` key, then rejects a stripped text shorter than
10 characters, and only then classifies. -/
def classify_complaint {α : Type} (classifyText : String → String → String → α)
    (body : Option ClassifyRequest) : ApiResponse α :=
  match body with
  | none => .failure 400 "Missing 'text' field in request"
  | some data =>
    match data.text with
    | none => .failure 400 "Missing 'text' field in request"
    | some raw =>
      let text := pyStrip raw
      if text.length < 10 then
        .failure 400 "Text must be at least 10 characters long"
      else .success (classifyText text data.location data.user_phone)

/-! ### Helper lemmas -/

theorem pyMax_one_pos (x : ℚ) : 0 < pyMax x 1 := by
  rw [pyMax]
  split
  · exact one_pos
  · linarith

theorem pyMin_mem_unit {a : ℚ} (ha : 0 ≤ a) : 0 ≤ pyMin a 1 ∧ pyMin a 1 ≤ 1 := by
  rw [pyMin]
  split
  · exact ⟨ha, by assumption⟩
  · exact ⟨zero_le_one, le_refl 1⟩

theorem pyMax_le {a b c : ℚ} (ha : a ≤ c) (hb : b ≤ c) : pyMax a b ≤ c := by
  rw [pyMax]
  split <;> assumption

theorem le_pyMax_right (a b : ℚ) : b ≤ pyMax a b := by
  rw [pyMax]
  split
  · exact le_refl b
  · linarith

theorem pyMaxBy_mem {α : Type} (f : α → Nat) (a : α) (l : List α) :
    pyMaxBy f a l ∈ a :: l := by
  induction l generalizing a with
  | nil => simp [pyMaxBy]
  | cons x xs ih =>
    simp only [pyMaxBy]
    rcases List.mem_cons.1 (ih (if f a < f x then x else a)) with h1 | h1
    · rw [h1]
      split
      · exact List.mem_cons_of_mem _ (List.mem_cons_self _ _)
      · exact List.mem_cons_self _ _
    · exact List.mem_cons_of_mem _ (List.mem_cons_of_mem _ h1)

theorem pyMaxBy_le {α : Type} (f : α → Nat) (a : α) (l : List α) :
    ∀ x ∈ a :: l, f x ≤ f (pyMaxBy f a l) := by
  induction l generalizing a with
  | nil =>
    intro x hx
    rw [List.mem_singleton.1 hx]
    simp [pyMaxBy]
  | cons y ys ih =>
    intro x hx
    simp only [pyMaxBy]
    have step : f a ≤ f (if f a < f y then y else a) ∧
        f y ≤ f (if f a < f y then y else a) := by
      split <;> omega
    rcases List.mem_cons.1 hx with h1 | h1
    · exact le_trans (h1 ▸ step.1)
        (ih _ _ (List.mem_cons_self _ _))
    · rcases List.mem_cons.1 h1 with h2 | h2
      · exact le_trans (h2 ▸ step.2)
          (ih _ _ (List.mem_cons_self _ _))
      · exact ih _ _ (List.mem_cons_of_mem _ h2)

theorem categoryScores_mem {cats : List Category} {p : String}
    {e : String × Nat × List String} (he : e ∈ categoryScores cats p) :
    ∃ c ∈ cats, e = (c.name, (matchedKeywords c p).length, matchedKeywords c p) := by
  rcases List.mem_filterMap.1 he with ⟨c, hc, heq⟩
  refine ⟨c, hc, ?_⟩
  by_cases h : 0 < (matchedKeywords c p).length
  · rw [if_pos h] at heq
    exact (Option.some_injective _ heq).symm
  · rw [if_neg h] at heq
    exact absurd heq (by simp)

theorem bestCategory_cases (scores : List (String × Nat × List String)) :
    bestCategory scores = ("Other", 0, []) ∨ bestCategory scores ∈ scores := by
  match scores with
  | [] => exact Or.inl rfl
  | x :: xs => exact Or.inr (pyMaxBy_mem _ x xs)

/-- The returned best score is always the length of the returned matched
keyword list. -/
theorem bestCategory_score_eq (cats : List Category) (p : String) :
    (bestCategory (categoryScores cats p)).2.1 =
      (bestCategory (categoryScores cats p)).2.2.length := by
  rcases bestCategory_cases (categoryScores cats p) with h | h
  · rw [h]
    rfl
  · rcases categoryScores_mem h with ⟨c, _, heq⟩
    rw [heq]

theorem kw_category_mem (cats : List Category) (t d : String) :
    (keyword_classification cats t d).category ∈ "Other" :: cats.map Category.name := by
  simp only [keyword_classification]
  rcases bestCategory_cases
      (categoryScores cats (preprocess_text (t ++ " " ++ d))) with h | h
  · rw [h]
    exact List.mem_cons_self _ _
  · rcases categoryScores_mem h with ⟨c, hc, heq⟩
    rw [heq]
    exact List.mem_cons_of_mem _ (List.mem_map_of_mem Category.name hc)

theorem kw_confidence_unit (cats : List Category) (t d : String) :
    0 ≤ (keyword_classification cats t d).confidence ∧
      (keyword_classification cats t d).confidence ≤ 1 := by
  simp only [keyword_classification]
  split
  · exact pyMin_mem_unit
      (div_nonneg (Nat.cast_nonneg _) (le_of_lt (pyMax_one_pos _)))
  · exact ⟨le_refl 0, zero_le_one⟩

/-- Counter of `severity_scores` addressed by a capitalized severity name
(the spec's view of the four counters). -/
def sevCount (ss : SevScores) : String → Nat
  | "Low" => ss.low
  | "Medium" => ss.medium
  | "High" => ss.high
  | "Critical" => ss.critical
  | _ => 0

theorem bestSeverity_mem (ss : SevScores) :
    bestSeverity ss = ("low", ss.low) ∨ bestSeverity ss = ("medium", ss.medium) ∨
      bestSeverity ss = ("high", ss.high) ∨
      bestSeverity ss = ("critical", ss.critical) := by
  have hmem := pyMaxBy_mem (fun e => e.2) ("low", ss.low)
    [("medium", ss.medium), ("high", ss.high), ("critical", ss.critical)]
  simpa only [bestSeverity, List.mem_cons, List.not_mem_nil, or_false]
    using hmem

theorem bestSeverity_snd (ss : SevScores) :
    (bestSeverity ss).2 = max (max ss.low ss.medium) (max ss.high ss.critical) := by
  have hle := pyMaxBy_le (fun e => e.2) ("low", ss.low)
    [("medium", ss.medium), ("high", ss.high), ("critical", ss.critical)]
  have h1 : ss.low ≤ (bestSeverity ss).2 := hle ("low", ss.low) (by simp)
  have h2 : ss.medium ≤ (bestSeverity ss).2 := hle ("medium", ss.medium) (by simp)
  have h3 : ss.high ≤ (bestSeverity ss).2 := hle ("high", ss.high) (by simp)
  have h4 : ss.critical ≤ (bestSeverity ss).2 :=
    hle ("critical", ss.critical) (by simp)
  rcases bestSeverity_mem ss with h | h | h | h
  · have he : (bestSeverity ss).2 = ss.low := by rw [h]
    omega
  · have he : (bestSeverity ss).2 = ss.medium := by rw [h]
    omega
  · have he : (bestSeverity ss).2 = ss.high := by rw [h]
    omega
  · have he : (bestSeverity ss).2 = ss.critical := by rw [h]
    omega

/-- The severity string produced by `keyword_classification` and the
facts the spec claims about it: one of the four capitalized levels, and
its counter is the maximum of the four counters. -/
theorem kw_severity_spec (cats : List Category) (t d : String) :
    ((keyword_classification cats t d).severity = "Low" ∨
      (keyword_classification cats t d).severity = "Medium" ∨
      (keyword_classification cats t d).severity = "High" ∨
      (keyword_classification cats t d).severity = "Critical") ∧
    sevCount (keyword_classification cats t d).severity_scores
        (keyword_classification cats t d).severity =
      max (max (keyword_classification cats t d).severity_scores.low
            (keyword_classification cats t d).severity_scores.medium)
          (max (keyword_classification cats t d).severity_scores.high
            (keyword_classification cats t d).severity_scores.critical) := by
  simp only [keyword_classification]
  set ss := severityScores cats (preprocess_text (t ++ " " ++ d)) with hss
  have hsnd := bestSeverity_snd ss
  by_cases hpos : 0 < (bestSeverity ss).2
  · rw [if_pos hpos]
    rcases bestSeverity_mem ss with h | h | h | h
    · rw [h]
      have he : (bestSeverity ss).2 = ss.low := by rw [h]
      refine ⟨Or.inl rfl, ?_⟩
      show ss.low = _
      omega
    · rw [h]
      have he : (bestSeverity ss).2 = ss.medium := by rw [h]
      refine ⟨Or.inr (Or.inl rfl), ?_⟩
      show ss.medium = _
      omega
    · rw [h]
      have he : (bestSeverity ss).2 = ss.high := by rw [h]
      refine ⟨Or.inr (Or.inr (Or.inl rfl)), ?_⟩
      show ss.high = _
      omega
    · rw [h]
      have he : (bestSeverity ss).2 = ss.critical := by rw [h]
      refine ⟨Or.inr (Or.inr (Or.inr rfl)), ?_⟩
      show ss.critical = _
      omega
  · rw [if_neg hpos]
    refine ⟨Or.inr (Or.inl rfl), ?_⟩
    have hz : (bestSeverity ss).2 = 0 := by omega
    show ss.medium = _
    omega

/-- An `ok` result of the adapter can only arise from a parsed payload
with both fields present, and carries the payload confidence through. -/
theorem openai_ok_shape {cats : List Category} {key : Bool} {io : LlmIO}
    {o : OpenAIResult} (h : openai_classification cats key io = .ok o) :
    ∃ p cn sv, io = some (some p) ∧ p.category = some cn ∧ p.severity = some sv ∧
      o.confidence = p.confidence ∧
      o.category = (if (cats.map Category.name).contains cn then cn else "Other") ∧
      o.severity = (if validSeverities.contains sv then sv else "Medium") := by
  unfold openai_classification at h
  split at h
  · exact absurd h (by simp)
  · split at h
    · exact absurd h (by simp)
    · exact absurd h (by simp)
    · rename_i p
      split at h
      · rename_i cn sv hcn hsv
        refine ⟨p, cn, sv, rfl, hcn, hsv, ?_⟩
        simp only [Except.ok.injEq] at h
        rw [← h]
        exact ⟨rfl, rfl, rfl⟩
      · exact absurd h (by simp)

theorem openai_ok_category_mem {cats : List Category} {key : Bool} {io : LlmIO}
    {o : OpenAIResult} (h : openai_classification cats key io = .ok o) :
    o.category ∈ "Other" :: cats.map Category.name := by
  rcases openai_ok_shape h with ⟨p, cn, sv, _, _, _, _, hcat, _⟩
  rw [hcat]
  split
  · rename_i hc
    exact List.mem_cons_of_mem _ (by simpa using hc)
  · exact List.mem_cons_self _ _

theorem hybridRun_short {cats : List Category} {t d : String} {key : Bool}
    {io : LlmIO}
    (h : (0.7 : ℚ) ≤ (keyword_classification cats t d).confidence) :
    hybridRun cats t d key io =
      ({ success := true
         category := (keyword_classification cats t d).category
         severity := (keyword_classification cats t d).severity
         confidence := (keyword_classification cats t d).confidence
         method := "keyword" }, 0) := by
  unfold hybridRun
  rw [if_pos h]

theorem hybridRun_fallback_nokey {cats : List Category} {t d : String}
    {io : LlmIO}
    (h : ¬ (0.7 : ℚ) ≤ (keyword_classification cats t d).confidence) :
    hybridRun cats t d false io =
      ({ success := true
         category := (keyword_classification cats t d).category
         severity := (keyword_classification cats t d).severity
         confidence := pyMax (keyword_classification cats t d).confidence 0.3
         method := "keyword_fallback" }, 0) := by
  unfold hybridRun
  rw [if_neg h]
  simp

theorem hybridRun_fallback_err {cats : List Category} {t d : String}
    {io : LlmIO} {e : String}
    (h : ¬ (0.7 : ℚ) ≤ (keyword_classification cats t d).confidence)
    (he : openai_classification cats true io = .error e) :
    hybridRun cats t d true io =
      ({ success := true
         category := (keyword_classification cats t d).category
         severity := (keyword_classification cats t d).severity
         confidence := pyMax (keyword_classification cats t d).confidence 0.3
         method := "keyword_fallback" }, 1) := by
  unfold hybridRun
  rw [if_neg h]
  simp only [he, if_true]

theorem hybridRun_ok {cats : List Category} {t d : String} {io : LlmIO}
    {o : OpenAIResult}
    (h : ¬ (0.7 : ℚ) ≤ (keyword_classification cats t d).confidence)
    (ho : openai_classification cats true io = .ok o) :
    hybridRun cats t d true io =
      ({ success := true
         category := o.category
         severity := o.severity
         confidence :=
           if (keyword_classification cats t d).category = o.category then
             pyMin (o.confidence.getD 0.8 + 0.2) 1
           else o.confidence.getD 0.8
         method := "hybrid" }, 1) := by
  unfold hybridRun
  rw [if_neg h]
  simp only [ho, if_true]

/-! ### Normalizer idempotence -/

theorem splitWsAux_append_token {t : List Char}
    (ht : ∀ c ∈ t, isSpaceChar c = false) :
    ∀ cur rest, splitWsAux cur (t ++ rest) = splitWsAux (t.reverse ++ cur) rest := by
  induction t with
  | nil => intro cur rest; rfl
  | cons c cs ih =>
    intro cur rest
    have hc : isSpaceChar c = false := ht c (by simp)
    rw [List.cons_append, splitWsAux.eq_def]
    simp only [hc, Bool.false_eq_true, if_false]
    rw [ih (fun x hx => ht x (by simp [hx])) (c :: cur) rest]
    simp [List.append_assoc]

theorem splitWsAux_space {cur rest : List Char} {c : Char}
    (hc : isSpaceChar c = true) :
    splitWsAux cur (c :: rest) =
      if cur = [] then splitWsAux [] rest
      else cur.reverse :: splitWsAux [] rest := by
  rw [splitWsAux.eq_def]
  simp [hc]

theorem splitWs_joinTokens :
    ∀ ts : List (List Char),
      (∀ t ∈ ts, t ≠ [] ∧ ∀ c ∈ t, isSpaceChar c = false) →
      splitWs (joinTokens ts) = ts := by
  intro ts
  induction ts with
  | nil => intro _; rfl
  | cons t rest ih =>
    intro hts
    have hne : t ≠ [] := (hts t (by simp)).1
    have hchars : ∀ c ∈ t, isSpaceChar c = false := (hts t (by simp)).2
    have hrevne : t.reverse ≠ [] := by
      simpa [List.reverse_eq_nil_iff] using hne
    cases rest with
    | nil =>
      show splitWsAux [] (joinTokens [t]) = [t]
      have hjoin : joinTokens [t] = t ++ [] := by simp [joinTokens]
      rw [hjoin, splitWsAux_append_token hchars]
      rw [splitWsAux.eq_def]
      simp [hrevne]
    | cons t2 rest2 =>
      show splitWsAux [] (joinTokens (t :: t2 :: rest2)) = t :: t2 :: rest2
      have hjoin : joinTokens (t :: t2 :: rest2) =
          t ++ ' ' :: joinTokens (t2 :: rest2) := rfl
      rw [hjoin, splitWsAux_append_token hchars, List.append_nil,
        splitWsAux_space (by decide), if_neg hrevne, List.reverse_reverse]
      exact congrArg (t :: ·)
        (ih (fun u hu => hts u (List.mem_cons_of_mem _ hu)))

theorem tokens_of_splitWsAux :
    ∀ (l cur : List Char), (∀ c ∈ cur, isSpaceChar c = false) →
      ∀ t ∈ splitWsAux cur l,
        t ≠ [] ∧ ∀ c ∈ t, isSpaceChar c = false ∧ (c ∈ l ∨ c ∈ cur) := by
  intro l
  induction l with
  | nil =>
    intro cur hcur t ht
    simp only [splitWsAux] at ht
    by_cases h : cur = []
    · simp [h] at ht
    · rw [if_neg h] at ht
      rw [List.mem_singleton.1 ht]
      refine ⟨by simpa [List.reverse_eq_nil_iff] using h, fun c hc => ?_⟩
      have hc2 : c ∈ cur := by simpa using hc
      exact ⟨hcur c hc2, Or.inr hc2⟩
  | cons a as ih =>
    intro cur hcur t ht
    simp only [splitWsAux] at ht
    by_cases ha : isSpaceChar a = true
    · simp only [ha, if_true] at ht
      by_cases h : cur = []
      · rw [if_pos h] at ht
        rcases ih [] (by simp) t ht with ⟨h1, h2⟩
        exact ⟨h1, fun c hc => ⟨(h2 c hc).1, by
          rcases (h2 c hc).2 with h3 | h3
          · exact Or.inl (List.mem_cons_of_mem _ h3)
          · simp at h3⟩⟩
      · rw [if_neg h] at ht
        rcases List.mem_cons.1 ht with h1 | h1
        · rw [h1]
          refine ⟨by simpa [List.reverse_eq_nil_iff] using h, fun c hc => ?_⟩
          have hc2 : c ∈ cur := by simpa using hc
          exact ⟨hcur c hc2, Or.inr hc2⟩
        · rcases ih [] (by simp) t h1 with ⟨h2, h3⟩
          exact ⟨h2, fun c hc => ⟨(h3 c hc).1, by
            rcases (h3 c hc).2 with h4 | h4
            · exact Or.inl (List.mem_cons_of_mem _ h4)
            · simp at h4⟩⟩
    · simp only [ha, if_false] at ht
      have ha2 : isSpaceChar a = false := by
        cases h : isSpaceChar a
        · rfl
        · exact absurd h ha
      rcases ih (a :: cur)
          (fun c hc => by
            rcases List.mem_cons.1 hc with h1 | h1
            · rw [h1]; exact ha2
            · exact hcur c h1) t ht with ⟨h1, h2⟩
      refine ⟨h1, fun c hc => ⟨(h2 c hc).1, ?_⟩⟩
      rcases (h2 c hc).2 with h3 | h3
      · exact Or.inl (List.mem_cons_of_mem _ h3)
      · rcases List.mem_cons.1 h3 with h4 | h4
        · exact Or.inl (h4 ▸ List.mem_cons_self _ _)
        · exact Or.inr h4

theorem mem_joinTokens :
    ∀ {ts : List (List Char)} {c : Char}, c ∈ joinTokens ts →
      c = ' ' ∨ ∃ t ∈ ts, c ∈ t := by
  intro ts
  induction ts with
  | nil => intro c h; simp [joinTokens] at h
  | cons t rest ih =>
    intro c h
    cases rest with
    | nil => exact Or.inr ⟨t, by simp, h⟩
    | cons t2 rest2 =>
      rw [show joinTokens (t :: t2 :: rest2) =
          t ++ ' ' :: joinTokens (t2 :: rest2) from rfl] at h
      rcases List.mem_append.1 h with h1 | h1
      · exact Or.inr ⟨t, by simp, h1⟩
      · rcases List.mem_cons.1 h1 with h2 | h2
        · exact Or.inl h2
        · rcases ih h2 with h3 | ⟨u, hu, hcu⟩
          · exact Or.inl h3
          · exact Or.inr ⟨u, List.mem_cons_of_mem _ hu, hcu⟩

theorem toNat_ofNat_of_lt {m : Nat} (h : m < 55296) : (Char.ofNat m).toNat = m := by
  have hv : m.isValidChar := Or.inl h
  rw [Char.ofNat, dif_pos hv]
  rfl

theorem toLower_toLower (c : Char) : c.toLower.toLower = c.toLower := by
  by_cases h : c.toNat >= 65 ∧ c.toNat <= 90
  · have h1 : c.toLower = Char.ofNat (c.toNat + 32) := by
      simp only [Char.toLower]
      rw [if_pos h]
    have ht : (Char.ofNat (c.toNat + 32)).toNat = c.toNat + 32 :=
      toNat_ofNat_of_lt (by omega)
    rw [h1]
    simp only [Char.toLower, ht]
    rw [if_neg (by omega)]
  · have h1 : c.toLower = c := by
      simp only [Char.toLower]
      rw [if_neg h]
    rw [h1]
    exact h1

theorem stage2_mem {x : List Char} {c : Char}
    (h : c ∈ (x.map Char.toLower).map scrubChar) :
    Char.toLower c = c ∧ (isWordChar c || isSpaceChar c) = true := by
  rcases List.mem_map.1 h with ⟨d, hd, rfl⟩
  rcases List.mem_map.1 hd with ⟨e, _, rfl⟩
  by_cases hw : (isWordChar e.toLower || isSpaceChar e.toLower) = true
  · rw [scrubChar, if_pos hw]
    exact ⟨toLower_toLower e, hw⟩
  · rw [scrubChar, if_neg hw]
    exact ⟨by decide, by decide⟩

theorem map_id_of_fix {α : Type} {f : α → α} :
    ∀ {l : List α}, (∀ c ∈ l, f c = c) → l.map f = l := by
  intro l
  induction l with
  | nil => intro _; rfl
  | cons c cs ih =>
    intro h
    rw [List.map_cons, h c (by simp), ih (fun x hx => h x (by simp [hx]))]

/-- Characters of the normalizer output are fixed by both the lowercase
pass and the scrub pass. -/
theorem pipeline_char_fixed {x : List Char} {c : Char}
    (h : c ∈ joinTokens (splitWs ((x.map Char.toLower).map scrubChar))) :
    Char.toLower c = c ∧ scrubChar c = c := by
  rcases mem_joinTokens h with h1 | ⟨t, ht, hct⟩
  · rw [h1]
    exact ⟨by decide, by decide⟩
  · have htok := tokens_of_splitWsAux _ [] (by simp) t ht
    have hc := (htok.2 c hct)
    have hmem : c ∈ (x.map Char.toLower).map scrubChar := by
      rcases hc.2 with h2 | h2
      · exact h2
      · simp at h2
    rcases stage2_mem hmem with ⟨hl, hws⟩
    refine ⟨hl, ?_⟩
    rw [scrubChar, if_pos]
    rcases Bool.or_eq_true_iff.1 hws with h3 | h3
    · simp [h3]
    · rw [hc.1] at h3
      exact absurd h3 (by simp)

theorem pipeline_idem (x : List Char) :
    joinTokens (splitWs
        (((joinTokens (splitWs ((x.map Char.toLower).map scrubChar))).map
            Char.toLower).map scrubChar)) =
      joinTokens (splitWs ((x.map Char.toLower).map scrubChar)) := by
  have hfix := fun c hc => pipeline_char_fixed (x := x) (c := c) hc
  have h1 : (joinTokens (splitWs ((x.map Char.toLower).map scrubChar))).map
      Char.toLower = joinTokens (splitWs ((x.map Char.toLower).map scrubChar)) :=
    map_id_of_fix (fun c hc => (hfix c hc).1)
  have h2 : (joinTokens (splitWs ((x.map Char.toLower).map scrubChar))).map
      scrubChar = joinTokens (splitWs ((x.map Char.toLower).map scrubChar)) :=
    map_id_of_fix (fun c hc => (hfix c hc).2)
  rw [h1, h2]
  have htoks : ∀ t ∈ splitWs ((x.map Char.toLower).map scrubChar),
      t ≠ [] ∧ ∀ c ∈ t, isSpaceChar c = false := by
    intro t ht
    have := tokens_of_splitWsAux _ [] (by simp) t ht
    exact ⟨this.1, fun c hc => (this.2 c hc).1⟩
  rw [splitWs_joinTokens _ htoks]

theorem data_mk (l : List Char) : (⟨l⟩ : String).data = l := rfl

/-- Claim C9: the text normalizer is idempotent — normalizing an already
normalized string yields the same string, for every input string. -/
theorem preprocess_text_idempotent (s : String) :
    preprocess_text (preprocess_text s) = preprocess_text s := by
  by_cases hs : s = ""
  · rw [hs]
    rfl
  · have hps : preprocess_text s =
        ⟨joinTokens (splitWs ((s.data.map Char.toLower).map scrubChar))⟩ := by
      rw [preprocess_text, if_neg hs]
    by_cases hy : preprocess_text s = ""
    · rw [hy]
      rfl
    · rw [preprocess_text, if_neg hy, hps]
      exact congrArg String.mk (pipeline_idem s.data)


/-! ### Further helper lemmas toward the claims -/

theorem pyMax_nonneg {a b : ℚ} (ha : 0 ≤ a) (hb : 0 ≤ b) : 0 ≤ pyMax a b := by
  rw [pyMax]
  split <;> assumption

/-- `keyword_classification` computes exactly the density confidence of the
spec, phrased through the result's own matched keyword list. -/
theorem kw_confidence_formula (cats : List Category) (t d : String) :
    (keyword_classification cats t d).confidence =
      (if 0 < (splitWs (preprocess_text (t ++ " " ++ d)).data).length then
        min (((keyword_classification cats t d).matched_keywords.length : ℚ) /
          max (((splitWs (preprocess_text (t ++ " " ++ d)).data).length : ℚ) * 0.1) 1)
          1
      else 0) := by
  simp only [keyword_classification]
  rw [bestCategory_score_eq, pyMin_eq_min, pyMax_eq_max]

theorem kw_confidence_empty (cats : List Category) (t d : String)
    (h : preprocess_text (t ++ " " ++ d) = "") :
    (keyword_classification cats t d).confidence = 0 := by
  simp only [keyword_classification, h]
  rfl

theorem kw_severity_default (cats : List Category) (t d : String)
    (h : (keyword_classification cats t d).severity_scores = ⟨0, 0, 0, 0⟩) :
    (keyword_classification cats t d).severity = "Medium" := by
  simp only [keyword_classification] at h ⊢
  rw [h]
  decide

theorem hybrid_category_mem (cats : List Category) (t d : String) (key : Bool)
    (io : LlmIO) :
    (hybrid_classification cats t d key io).category ∈
      "Other" :: cats.map Category.name := by
  by_cases h07 : (0.7 : ℚ) ≤ (keyword_classification cats t d).confidence
  · simp only [hybrid_classification, hybridRun_short h07]
    exact kw_category_mem cats t d
  · cases key with
    | false =>
      simp only [hybrid_classification, hybridRun_fallback_nokey h07]
      exact kw_category_mem cats t d
    | true =>
      cases ho : openai_classification cats true io with
      | error e =>
        simp only [hybrid_classification, hybridRun_fallback_err h07 ho]
        exact kw_category_mem cats t d
      | ok o =>
        simp only [hybrid_classification, hybridRun_ok h07 ho]
        exact openai_ok_category_mem ho

theorem cwo_category_mem (key : Bool) (reply : Option String) :
    (classify_with_openai key reply).1 ∈ enhancedCategoryNames := by
  unfold classify_with_openai
  split
  · decide
  · cases reply with
    | none => decide
    | some content =>
      simp only
      split
      · rename_i hc
        simpa using hc
      · decide

theorem openai_eval_ok (cats : List Category) (p : LlmPayload) {cn sv : String}
    (hc : p.category = some cn) (hs : p.severity = some sv) :
    openai_classification cats true (some (some p)) =
      .ok { category := if (cats.map Category.name).contains cn then cn else "Other"
            severity := if validSeverities.contains sv then sv else "Medium"
            confidence := p.confidence
            method := "openai" } := by
  obtain ⟨pc, ps, pf⟩ := p
  simp only at hc hs
  subst hc
  subst hs
  rfl

theorem openai_eval_err_nocat (cats : List Category) (p : LlmPayload)
    (hc : p.category = none) :
    openai_classification cats true (some (some p)) =
      .error "Invalid response format from OpenAI" := by
  obtain ⟨pc, ps, pf⟩ := p
  simp only at hc
  subst hc
  cases ps <;> rfl

theorem openai_eval_err_nosev (cats : List Category) (p : LlmPayload)
    (hs : p.severity = none) :
    openai_classification cats true (some (some p)) =
      .error "Invalid response format from OpenAI" := by
  obtain ⟨pc, ps, pf⟩ := p
  simp only at hs
  subst hs
  cases pc <;> rfl

theorem openai_eval_err_parse (cats : List Category) :
    openai_classification cats true (some none) =
      .error "Invalid response format from OpenAI" := rfl

/-- Worked keyword results on the sample catalog, used by the witnesses. -/
def descW : String := "a a a a a a a a a a a a a a a a a a a a a a a a a a a a a a a a a a a a a a a a a a a a a a a a a"

theorem kw_water_conf : (keyword_classification catsW "water" "").confidence = 1 := by
  have h1 : bestCategory (categoryScores catsW (preprocess_text ("water" ++ " " ++ ""))) =
      ("Water Supply", 1, ["water"]) := by decide
  have h2 : (splitWs (preprocess_text ("water" ++ " " ++ "")).data).length = 1 := by
    decide
  simp only [keyword_classification, h1, h2]
  norm_num [pyMin, pyMax]

theorem kw_xyz_conf : (keyword_classification catsW "xyz" "").confidence = 0 := by
  have h1 : bestCategory (categoryScores catsW (preprocess_text ("xyz" ++ " " ++ ""))) =
      ("Other", 0, []) := by decide
  have h2 : (splitWs (preprocess_text ("xyz" ++ " " ++ "")).data).length = 1 := by
    decide
  simp only [keyword_classification, h1, h2]
  norm_num [pyMin, pyMax]

theorem kw_flood_conf :
    (keyword_classification catsW "water" descW).confidence = 1/5 := by
  have h1 : bestCategory (categoryScores catsW (preprocess_text ("water" ++ " " ++ descW))) =
      ("Water Supply", 1, ["water"]) := by decide
  have h2 : (splitWs (preprocess_text ("water" ++ " " ++ descW)).data).length = 50 := by
    decide
  simp only [keyword_classification, h1, h2]
  norm_num [pyMin, pyMax]

/-! ### Claims -/

/-- Claim C1 (amended): the confidence returned by the Hybrid Arbiter lies
in [0,1] through every branch, provided that any confidence supplied in
the LLM payload itself lies in [0,1]; the keyword short-circuit and
keyword-fallback branches satisfy the bound unconditionally, and so does
the LLM branch when the payload omits the confidence field (default 0.8).
An out-of-range LLM confidence is passed through unclamped when the two
tiers disagree (see the counterexample). -/
theorem hybrid_confidence_in_unit_interval (cats : List Category)
    (t d : String) (key : Bool) (io : LlmIO)
    (h : ∀ p c, io = some (some p) → p.confidence = some c → 0 ≤ c ∧ c ≤ 1) :
    0 ≤ (hybrid_classification cats t d key io).confidence ∧
      (hybrid_classification cats t d key io).confidence ≤ 1 := by
  have hkw := kw_confidence_unit cats t d
  by_cases h07 : (0.7 : ℚ) ≤ (keyword_classification cats t d).confidence
  · simpa only [hybrid_classification, hybridRun_short h07] using hkw
  · cases key with
    | false =>
      simp only [hybrid_classification, hybridRun_fallback_nokey h07]
      exact ⟨pyMax_nonneg hkw.1 (by norm_num), pyMax_le hkw.2 (by norm_num)⟩
    | true =>
      cases ho : openai_classification cats true io with
      | error e =>
        simp only [hybrid_classification, hybridRun_fallback_err h07 ho]
        exact ⟨pyMax_nonneg hkw.1 (by norm_num), pyMax_le hkw.2 (by norm_num)⟩
      | ok o =>
        simp only [hybrid_classification, hybridRun_ok h07 ho]
        have hbase : 0 ≤ o.confidence.getD 0.8 ∧ o.confidence.getD 0.8 ≤ 1 := by
          rcases openai_ok_shape ho with ⟨p, cn, sv, hio, _, _, hoc, _, _⟩
          cases hpc : p.confidence with
          | none =>
            rw [hoc, hpc]
            norm_num
          | some c =>
            rw [hoc, hpc]
            simpa using h p c hio hpc
        split
        · constructor
          · rw [pyMin]
            split
            · linarith [hbase.1]
            · norm_num
          · rw [pyMin]
            split
            · rename_i hle
              exact hle
            · norm_num
        · exact hbase

/-- Witness for C1 at a concrete request whose LLM payload confidence 1/2
is in range. -/
theorem hybrid_confidence_in_unit_interval_witness :
    0 ≤ (hybrid_classification catsW "xyz" "" true
        (some (some ⟨some "Water Supply", some "High", some (1/2)⟩))).confidence ∧
      (hybrid_classification catsW "xyz" "" true
        (some (some ⟨some "Water Supply", some "High", some (1/2)⟩))).confidence ≤ 1 := by
  refine hybrid_confidence_in_unit_interval catsW "xyz" "" true _ ?_
  intro p c hp hc
  simp only [Option.some.injEq] at hp
  subst hp
  simp only [Option.some.injEq] at hc
  subst hc
  norm_num

/-- Counterexample to C1 as stated: with keyword confidence 0, a
configured key, and an LLM payload carrying confidence 2 and a category
that disagrees with the keyword tier, the arbiter returns confidence 2,
outside [0,1]. -/
theorem hybrid_confidence_counterexample :
    ¬ (0 ≤ (hybrid_classification catsW "xyz" "" true
          (some (some ⟨some "Water Supply", some "High", some 2⟩))).confidence ∧
        (hybrid_classification catsW "xyz" "" true
          (some (some ⟨some "Water Supply", some "High", some 2⟩))).confidence ≤ 1) := by
  have h07 : ¬ (0.7 : ℚ) ≤ (keyword_classification catsW "xyz" "").confidence := by
    rw [kw_xyz_conf]
    norm_num
  have ho : openai_classification catsW true
      (some (some ⟨some "Water Supply", some "High", some 2⟩)) =
        .ok { category := "Water Supply", severity := "High"
              confidence := some 2, method := "openai" } := by
    rw [openai_eval_ok catsW _ rfl rfl, if_pos (by decide), if_pos (by decide)]
  have hcat : (keyword_classification catsW "xyz" "").category = "Other" := by
    decide
  simp only [hybrid_classification, hybridRun_ok h07 ho, hcat]
  rw [if_neg (by decide)]
  simp only [Option.getD_some]
  rintro ⟨h1, h2⟩
  norm_num at h2

/-- Claim C2: the category of every arbiter result is a catalog name or
the sentinel `"Other"`; the enhanced variant's LLM fallback always
returns a name of its catalog; and an LLM category outside the catalog is
coerced to `"Other"` instead of being carried through. -/
theorem classification_category_in_catalog (cats : List Category)
    (t d : String) (key : Bool) (io : LlmIO) (ekey : Bool)
    (reply : Option String) :
    (hybrid_classification cats t d key io).category ∈
        "Other" :: cats.map Category.name ∧
      (classify_with_openai ekey reply).1 ∈ enhancedCategoryNames ∧
      (∀ p cn r, io = some (some p) → p.category = some cn →
        cn ∉ cats.map Category.name →
        openai_classification cats key io = .ok r → r.category = "Other") := by
  refine ⟨hybrid_category_mem cats t d key io, cwo_category_mem ekey reply, ?_⟩
  intro p cn r hio hpc hnot hok
  rcases openai_ok_shape hok with ⟨p2, cn2, sv2, hio2, hpc2, _, _, hcat, _⟩
  rw [hio] at hio2
  simp only [Option.some.injEq] at hio2
  subst hio2
  rw [hpc] at hpc2
  simp only [Option.some.injEq] at hpc2
  subst hpc2
  rw [hcat, if_neg (by simpa using hnot)]

/-- Witness for C2: a payload category `"Garbage"` outside the sample
catalog is coerced to `"Other"`, and the concrete results are in their
catalogs. -/
theorem classification_category_in_catalog_witness :
    (hybrid_classification catsW "xyz" "" true
        (some (some ⟨some "Garbage", some "High", none⟩))).category ∈
        "Other" :: catsW.map Category.name ∧
      (classify_with_openai true (some "Garbage")).1 ∈ enhancedCategoryNames ∧
      ({ category := "Other", severity := "High", confidence := none
         method := "openai" } : OpenAIResult).category = "Other" := by
  have h := classification_category_in_catalog catsW "xyz" "" true
    (some (some ⟨some "Garbage", some "High", none⟩)) true (some "Garbage")
  have hok : openai_classification catsW true
      (some (some ⟨some "Garbage", some "High", none⟩)) =
        .ok { category := "Other", severity := "High", confidence := none
              method := "openai" } := by
    rw [openai_eval_ok catsW _ rfl rfl, if_neg (by decide), if_pos (by decide)]
  exact ⟨h.1, h.2.1,
    h.2.2 ⟨some "Garbage", some "High", none⟩ "Garbage" _ rfl rfl (by decide) hok⟩

/-- Claim C3: whenever the keyword tier's confidence reaches 0.7, the
arbiter answers with the keyword result (`method = keyword`) and performs
no outbound LLM call, for every key configuration and every possible
adapter outcome. -/
theorem keyword_short_circuit_no_llm_call (cats : List Category)
    (t d : String) (key : Bool) (io : LlmIO)
    (h : (0.7 : ℚ) ≤ (keyword_classification cats t d).confidence) :
    hybridLlmCalls cats t d key io = 0 ∧
      hybrid_classification cats t d key io =
        { success := true
          category := (keyword_classification cats t d).category
          severity := (keyword_classification cats t d).severity
          confidence := (keyword_classification cats t d).confidence
          method := "keyword" } := by
  simp only [hybridLlmCalls, hybrid_classification, hybridRun_short h]
  exact ⟨trivial, trivial⟩

/-- Witness for C3: `"water"` scores confidence 1 ≥ 0.7 on the sample
catalog, so even with a configured key no LLM call happens. -/
theorem keyword_short_circuit_no_llm_call_witness :
    hybridLlmCalls catsW "water" "" true none = 0 ∧
      hybrid_classification catsW "water" "" true none =
        { success := true, category := "Water Supply", severity := "Medium"
          confidence := 1, method := "keyword" } := by
  have h07 : (0.7 : ℚ) ≤ (keyword_classification catsW "water" "").confidence := by
    rw [kw_water_conf]
    norm_num
  have h := keyword_short_circuit_no_llm_call catsW "water" "" true none h07
  refine ⟨h.1, ?_⟩
  rw [h.2]
  have hcat : (keyword_classification catsW "water" "").category = "Water Supply" := by
    decide
  have hsev : (keyword_classification catsW "water" "").severity = "Medium" := by
    decide
  rw [hcat, hsev, kw_water_conf]

/-- Claim C4: with keyword confidence below 0.7 and the LLM tier
unavailable (no key) or failing, the arbiter returns the keyword category
and severity with confidence `max(keyword confidence, 0.3)` and
`method = keyword_fallback`. -/
theorem keyword_fallback_confidence_floor (cats : List Category)
    (t d : String) (key : Bool) (io : LlmIO)
    (h1 : (keyword_classification cats t d).confidence < 0.7)
    (h2 : key = false ∨ ∃ e, openai_classification cats key io = .error e) :
    hybrid_classification cats t d key io =
      { success := true
        category := (keyword_classification cats t d).category
        severity := (keyword_classification cats t d).severity
        confidence := max (keyword_classification cats t d).confidence 0.3
        method := "keyword_fallback" } := by
  have h07 := not_le.mpr h1
  rcases h2 with h2 | ⟨e, he⟩
  · subst h2
    simp only [hybrid_classification, hybridRun_fallback_nokey h07, pyMax_eq_max]
  · cases key with
    | false =>
      simp only [hybrid_classification, hybridRun_fallback_nokey h07, pyMax_eq_max]
    | true =>
      simp only [hybrid_classification, hybridRun_fallback_err h07 he, pyMax_eq_max]

/-- Witness for C4, the spec's concrete scenario: keyword confidence 1/5
and no key yield `keyword_fallback` with confidence exactly 3/10. -/
theorem keyword_fallback_confidence_floor_witness :
    hybrid_classification catsW "water" descW false none =
      { success := true, category := "Water Supply", severity := "Medium"
        confidence := 3/10, method := "keyword_fallback" } := by
  have h1 : (keyword_classification catsW "water" descW).confidence < 0.7 := by
    rw [kw_flood_conf]
    norm_num
  have h := keyword_fallback_confidence_floor catsW "water" descW false none h1
    (Or.inl rfl)
  rw [h]
  have hcat : (keyword_classification catsW "water" descW).category =
      "Water Supply" := by decide
  have hsev : (keyword_classification catsW "water" descW).severity = "Medium" := by
    decide
  rw [hcat, hsev, kw_flood_conf,
    show (max (1/5 : ℚ) 0.3) = 3/10 by
      rw [max_eq_right (by norm_num)]
      norm_num]

/-- Claim C5: when the adapter succeeds in the second branch, category,
severity and confidence come from the LLM result (`method = hybrid`); if
the keyword tier agrees on the category the confidence is
`min(llm + 0.2, 1)`, otherwise the LLM confidence is used unmodified. -/
theorem hybrid_llm_success_result (cats : List Category) (t d : String)
    (io : LlmIO) (o : OpenAIResult) (c : ℚ)
    (h1 : (keyword_classification cats t d).confidence < 0.7)
    (h2 : openai_classification cats true io = .ok o)
    (h3 : o.confidence = some c) :
    hybrid_classification cats t d true io =
      { success := true
        category := o.category
        severity := o.severity
        confidence :=
          if (keyword_classification cats t d).category = o.category then
            min (c + 0.2) 1
          else c
        method := "hybrid" } := by
  have h07 := not_le.mpr h1
  simp only [hybrid_classification, hybridRun_ok h07 h2, h3, Option.getD_some,
    pyMin_eq_min]

/-- Witness for C5: keyword tier says `"Other"`, LLM says
`"Water Supply"` with confidence 1/2 — the disagreement keeps 1/2. -/
theorem hybrid_llm_success_result_witness :
    hybrid_classification catsW "xyz" "" true
        (some (some ⟨some "Water Supply", some "High", some (1/2)⟩)) =
      { success := true, category := "Water Supply", severity := "High"
        confidence := 1/2, method := "hybrid" } := by
  have h1 : (keyword_classification catsW "xyz" "").confidence < 0.7 := by
    rw [kw_xyz_conf]
    norm_num
  have ho : openai_classification catsW true
      (some (some ⟨some "Water Supply", some "High", some (1/2)⟩)) =
        .ok { category := "Water Supply", severity := "High"
              confidence := some (1/2), method := "openai" } := by
    rw [openai_eval_ok catsW _ rfl rfl, if_pos (by decide), if_pos (by decide)]
  have h := hybrid_llm_success_result catsW "xyz" "" _ _ (1/2) h1 ho rfl
  rw [h]
  have hcat : (keyword_classification catsW "xyz" "").category = "Other" := by
    decide
  rw [hcat, if_neg (by decide)]

/-- Claim C6: given a key and transport success, the adapter errors iff
the payload is not well-formed JSON or lacks `category` or `severity`; an
out-of-catalog category is coerced to `"Other"` and an invalid severity
to `"Medium"`, both without failing. -/
theorem openai_adapter_validation (cats : List Category)
    (j : Option LlmPayload) :
    ((∃ e, openai_classification cats true (some j) = .error e) ↔
        j = none ∨ ∃ p, j = some p ∧ (p.category = none ∨ p.severity = none)) ∧
      (∀ p cn sv, j = some p → p.category = some cn → p.severity = some sv →
        cn ∉ cats.map Category.name →
        openai_classification cats true (some j) =
          .ok { category := "Other"
                severity := if validSeverities.contains sv then sv else "Medium"
                confidence := p.confidence
                method := "openai" }) ∧
      (∀ p cn sv, j = some p → p.category = some cn → p.severity = some sv →
        sv ∉ validSeverities →
        openai_classification cats true (some j) =
          .ok { category :=
                  if (cats.map Category.name).contains cn then cn else "Other"
                severity := "Medium"
                confidence := p.confidence
                method := "openai" }) := by
  refine ⟨⟨?_, ?_⟩, ?_, ?_⟩
  · rintro ⟨e, he⟩
    cases j with
    | none => exact Or.inl rfl
    | some p =>
      refine Or.inr ⟨p, rfl, ?_⟩
      cases hpc : p.category with
      | none => exact Or.inl rfl
      | some cn =>
        cases hps : p.severity with
        | none => exact Or.inr rfl
        | some sv =>
          rw [openai_eval_ok cats p hpc hps] at he
          exact absurd he (by simp)
  · rintro (h | ⟨p, rfl, h | h⟩)
    · subst h
      exact ⟨_, openai_eval_err_parse cats⟩
    · exact ⟨_, openai_eval_err_nocat cats p h⟩
    · exact ⟨_, openai_eval_err_nosev cats p h⟩
  · rintro p cn sv rfl hpc hps hnot
    have hcc : ((cats.map Category.name).contains cn) = false := by
      simpa using hnot
    rw [openai_eval_ok cats p hpc hps, hcc]
    simp
  · rintro p cn sv rfl hpc hps hnot
    have hsc : (validSeverities.contains sv) = false := by
      simpa using hnot
    rw [openai_eval_ok cats p hpc hps, hsc]
    simp

/-- Witness for C6: a payload missing nothing but with unknown category
and severity succeeds with both coercions; a malformed payload errors. -/
theorem openai_adapter_validation_witness :
    (∃ e, openai_classification catsW true (some none) = .error e) ∧
      openai_classification catsW true
          (some (some ⟨some "Garbage", some "Wild", some 1⟩)) =
        .ok { category := "Other", severity := "Medium", confidence := some 1
              method := "openai" } := by
  have hnone := openai_adapter_validation catsW none
  have hsome := openai_adapter_validation catsW
    (some ⟨some "Garbage", some "Wild", some 1⟩)
  refine ⟨hnone.1.mpr (Or.inl rfl), ?_⟩
  have h := hsome.2.1 ⟨some "Garbage", some "Wild", some 1⟩ "Garbage" "Wild"
    rfl rfl rfl (by decide)
  rw [h, if_neg (by decide)]

/-- Claim C7: the keyword confidence equals the best category's
matched-keyword count divided by `max(total words * 0.1, 1)`, clamped
above at 1, and is 0 when the normalized text is empty. -/
theorem keyword_confidence_density (cats : List Category) (t d : String) :
    ((keyword_classification cats t d).confidence =
        if 0 < (splitWs (preprocess_text (t ++ " " ++ d)).data).length then
          min (((keyword_classification cats t d).matched_keywords.length : ℚ) /
            max (((splitWs (preprocess_text (t ++ " " ++ d)).data).length : ℚ) *
              0.1) 1) 1
        else 0) ∧
      (preprocess_text (t ++ " " ++ d) = "" →
        (keyword_classification cats t d).confidence = 0) :=
  ⟨kw_confidence_formula cats t d, kw_confidence_empty cats t d⟩

/-- Witness for C7: a punctuation-only title normalizes to the empty
string and yields confidence 0. -/
theorem keyword_confidence_density_witness :
    (keyword_classification catsW "???" "").confidence = 0 :=
  (keyword_confidence_density catsW "???" "").2 (by decide)

/-- Claim C8: the severity is always one of Low/Medium/High/Critical, it
defaults to Medium when every severity indicator counter is zero, and its
counter is maximal among the four counters. -/
theorem keyword_severity_wellformed (cats : List Category) (t d : String) :
    ((keyword_classification cats t d).severity = "Low" ∨
      (keyword_classification cats t d).severity = "Medium" ∨
      (keyword_classification cats t d).severity = "High" ∨
      (keyword_classification cats t d).severity = "Critical") ∧
      ((keyword_classification cats t d).severity_scores.low = 0 ∧
        (keyword_classification cats t d).severity_scores.medium = 0 ∧
        (keyword_classification cats t d).severity_scores.high = 0 ∧
        (keyword_classification cats t d).severity_scores.critical = 0 →
        (keyword_classification cats t d).severity = "Medium") ∧
      sevCount (keyword_classification cats t d).severity_scores
          (keyword_classification cats t d).severity =
        max (max (keyword_classification cats t d).severity_scores.low
              (keyword_classification cats t d).severity_scores.medium)
            (max (keyword_classification cats t d).severity_scores.high
              (keyword_classification cats t d).severity_scores.critical) := by
  refine ⟨(kw_severity_spec cats t d).1, ?_, (kw_severity_spec cats t d).2⟩
  intro h
  refine kw_severity_default cats t d ?_
  have he : (keyword_classification cats t d).severity_scores =
      ⟨(keyword_classification cats t d).severity_scores.low,
        (keyword_classification cats t d).severity_scores.medium,
        (keyword_classification cats t d).severity_scores.high,
        (keyword_classification cats t d).severity_scores.critical⟩ := rfl
  rw [he, h.1, h.2.1, h.2.2.1, h.2.2.2]

/-- Witness for C8: `"xyz"` matches no indicator, so every counter is
zero and the severity defaults to Medium. -/
theorem keyword_severity_wellformed_witness :
    (keyword_classification catsW "xyz" "").severity = "Medium" :=
  (keyword_severity_wellformed catsW "xyz" "").2.1 (by decide)

/-- Claim C10: the enhanced classify endpoint rejects any request whose
stripped text is shorter than 10 characters with a `success: false`
error, before invoking any classification function at all. -/
theorem classify_rejects_short_text {α : Type}
    (classifyText : String → String → String → α)
    (body : Option ClassifyRequest) (data : ClassifyRequest) (raw : String)
    (hb : body = some data) (ht : data.text = some raw)
    (hlen : (pyStrip raw).length < 10) :
    classify_complaint classifyText body =
      .failure 400 "Text must be at least 10 characters long" := by
  subst hb
  simp only [classify_complaint, ht]
  rw [if_pos hlen]

/-- Witness for C10: `"  short  "` strips to 5 characters and is
rejected, whatever the classifier would have returned. -/
theorem classify_rejects_short_text_witness :
    classify_complaint (fun _ _ _ => (0 : Nat))
        (some { text := some "  short  ", location := "", user_phone := "" }) =
      .failure 400 "Text must be at least 10 characters long" :=
  classify_rejects_short_text (fun _ _ _ => (0 : Nat)) _ _ "  short  " rfl rfl
    (by decide)

end Nagrik
